import Mathlib

/-!
Shallow embedding of the VectorScope image/video synthesis pipeline
(`src/vectorscope.py` and `src/vectorscope_video.py`).

Real arithmetic is modelled over `ℚ`; every constant of the two Python
modules that the synthesis core uses is reproduced exactly (they are all
dyadic rationals, so the float arithmetic of the source is exact on them).
The NumPy global random generator is modelled as an explicit state `RNG`:
a stream of raw standard-normal draws together with a position, threaded
through every sampling call exactly in the order the source consumes
randomness (per active pixel: the left-channel draws, then the
right-channel draws).
-/

/-- State of the random generator: the stream of raw standard-normal
draws determined by the seed, and the current position in it. -/
structure RNG where
  stream : Nat → ℚ
  pos : Nat

/-- A concrete generator state used for evaluation: the all-zero draw
stream at position zero. -/
def rng0 : RNG := ⟨fun _ => 0, 0⟩

/-- Model of `np.clip(x, lo, hi)`: `min(hi, max(x, lo))`. -/
def clip (x lo hi : ℚ) : ℚ := min hi (max x lo)

/-- Model of `np.random.normal(loc, scale, size)` under the stream model:
the j-th produced sample is `loc + scale * z` where `z` is the next raw
draw of the stream, and the generator position advances by `size`. -/
def draw_normal (rng : RNG) (loc scale : ℚ) (size : Nat) : List ℚ × RNG :=
  ((List.range size).map fun j => loc + scale * rng.stream (rng.pos + j),
   ⟨rng.stream, rng.pos + size⟩)

/-- Shared constant `SIGMA = 0.01` of both modules. -/
def SIGMA : ℚ := 1 / 100

/-- Shared constant `SAMPLE_RATE = 44100` of both modules. -/
def SAMPLE_RATE : Nat := 44100

/-- Shared constant `FRAME_DURATION = 0.125` of both modules. -/
def FRAME_DURATION : ℚ := 1 / 8

/-- The normalized image point computed for an active cell at
`(row, col)` of an `H × W` matrix: the body of the loop of
`matrix_to_points` in both modules,
`x = (2*col)/(W-1) - 1.0`, `y = -((2*row)/(H-1) - 1.0)`. -/
def cell_to_point (H W row col : Nat) : ℚ × ℚ :=
  ((2 * (col : ℚ)) / ((W : ℚ) - 1) - 1, -((2 * (row : ℚ)) / ((H : ℚ) - 1) - 1))

/-- Model of `xy_to_stereo` (identical in both modules):
`L_amp = (y - x)/2`, `R_amp = (x + y)/2`, returned as `(L_amp, R_amp)`. -/
def xy_to_stereo (x y : ℚ) : ℚ × ℚ := ((y - x) / 2, (x + y) / 2)

/-- Model of `np.tile(block, (n, 1))`: the block concatenated with itself
`n` times end-to-end (each list element is one stereo sample pair). -/
def np_tile : Nat → List (ℚ × ℚ) → List (ℚ × ℚ)
  | 0, _ => []
  | n + 1, l => l ++ np_tile n l

/-- Duration fitting as performed at the call sites in both modules
(`generate_video_wav_from_frames` and `_export_image`): if the base block
is empty, `np.zeros((T, 2))`; otherwise
`reps = int(np.ceil(T / B))` (which is the exact ceiling `(T + B - 1) / B`
for the magnitudes the program uses), then `np.tile(block, (reps, 1))`
truncated to the first `T` samples. -/
def duration_fit (block : List (ℚ × ℚ)) (T : Nat) : List (ℚ × ℚ) :=
  if block.length = 0 then List.replicate T ((0 : ℚ), (0 : ℚ))
  else (np_tile ((T + block.length - 1) / block.length) block).take T

/-- Model of `total_samples_frame = int(FRAME_DURATION * SAMPLE_RATE)`
(Python `int` truncates; the product is positive, so it is the floor). -/
def total_samples_frame : Nat := (⌊FRAME_DURATION * (SAMPLE_RATE : ℚ)⌋).toNat

/-- Per-pixel synthesis loop shared by both `create_base_block` variants:
for each `(L_amp, R_amp)` in order, draw `K` left-channel samples then
`K` right-channel samples, clip each to `[-1, 1]`, and append the `K`
stereo pairs to the running buffer. -/
def synth_block (K : Nat) : List (ℚ × ℚ) → RNG → List (ℚ × ℚ) × RNG
  | [], rng => ([], rng)
  | amp :: rest, rng =>
    let dL := draw_normal rng amp.1 SIGMA K
    let dR := draw_normal dL.2 amp.2 SIGMA K
    let seg := (dL.1.map (clip · (-1) 1)).zip (dR.1.map (clip · (-1) 1))
    let recRes := synth_block K rest dR.2
    (seg ++ recRes.1, recRes.2)

namespace VectorscopeVideo

/-- Constant `N_SAMPLES_PER_PIXEL = 40` of `vectorscope_video.py`. -/
def N_SAMPLES_PER_PIXEL : Nat := 40

/-- Model of `matrix_to_points` of `vectorscope_video.py`: row-major
traversal of the `H × W` matrix, emitting the normalized point of every
cell whose value equals `1` (`if mat[row][col] == 1`). -/
def matrix_to_points (mat : List (List ℤ)) : List (ℚ × ℚ) :=
  let H := mat.length
  let W := if 0 < H then mat.headI.length else 0
  (List.range H).flatMap fun row =>
    (List.range W).filterMap fun col =>
      if (mat.getD row []).getD col 0 = 1 then some (cell_to_point H W row col)
      else none

/-- Model of `matrix_to_points` of `vectorscope_video.py` with Python's
`ZeroDivisionError` made explicit: whenever an active cell causes the
division by `W - 1` or `H - 1` to be evaluated with a zero divisor
(`W = 1` or `H = 1`), the function raises instead of returning. -/
def matrix_to_pointsE (mat : List (List ℤ)) : Except Unit (List (ℚ × ℚ)) :=
  let H := mat.length
  let W := if 0 < H then mat.headI.length else 0
  (List.range H).foldlM
    (fun pts row =>
      (List.range W).foldlM
        (fun pts col =>
          if (mat.getD row []).getD col 0 = 1 then
            if W = 1 ∨ H = 1 then Except.error ()
            else Except.ok (pts ++ [cell_to_point H W row col])
          else Except.ok pts)
        pts)
    []

/-- Model of `create_base_block` of `vectorscope_video.py`: the point
list, an empty result `(None, 0)` when there is no active cell, otherwise
the synthesized block of `count * N_SAMPLES_PER_PIXEL` stereo samples
together with that count, threading the random generator. -/
def create_base_block (mat : List (List ℤ)) (rng : RNG) :
    (Option (List (ℚ × ℚ)) × Nat) × RNG :=
  let pts := matrix_to_points mat
  if pts.length = 0 then ((none, 0), rng)
  else
    let total := pts.length * N_SAMPLES_PER_PIXEL
    let amps := pts.map fun p => xy_to_stereo p.1 p.2
    let res := synth_block N_SAMPLES_PER_PIXEL amps rng
    ((some res.1, total), res.2)

/-- The per-frame segment loop of `generate_video_wav_from_frames`: for
each frame in order, the base block is synthesized and fitted to
`total_samples_frame` samples (an empty frame yields
`np.zeros((total_samples_frame, 2))`, which `duration_fit` produces on
the empty block), threading the random generator. -/
def video_segments : List (List (List ℤ)) → RNG → List (List (ℚ × ℚ)) × RNG
  | [], rng => ([], rng)
  | mat :: rest, rng =>
    let res := create_base_block mat rng
    let seg := duration_fit (res.1.1.getD []) total_samples_frame
    let recRes := video_segments rest res.2
    (seg :: recRes.1, recRes.2)

/-- Model of `generate_video_wav_from_frames` of `vectorscope_video.py`:
with no frames, a warning and no buffer (`none`); otherwise the
concatenation (`np.vstack`) of the per-frame segments. -/
def generate_video_wav_from_frames (frames : List (List (List ℤ))) (rng : RNG) :
    Option (List (ℚ × ℚ)) × RNG :=
  if frames.length = 0 then (none, rng)
  else
    let res := video_segments frames rng
    (some res.1.flatten, res.2)

end VectorscopeVideo

namespace Vectorscope

/-- Constant `N_SAMPLES_PER_PIXEL = 100` of `vectorscope.py`. -/
def N_SAMPLES_PER_PIXEL : Nat := 100

/-- Constant `IMAGE_DURATION = 30.0` of `vectorscope.py`. -/
def IMAGE_DURATION : ℚ := 30

/-- Model of `matrix_to_points` of `vectorscope.py`: identical to the
video variant except the activity test is Python truthiness of the cell
(`if mat[r][c]:`, i.e. the value is nonzero). -/
def matrix_to_points (mat : List (List ℤ)) : List (ℚ × ℚ) :=
  let H := mat.length
  let W := if 0 < H then mat.headI.length else 0
  (List.range H).flatMap fun row =>
    (List.range W).filterMap fun col =>
      if (mat.getD row []).getD col 0 ≠ 0 then some (cell_to_point H W row col)
      else none

/-- Model of `matrix_to_points` of `vectorscope.py` with Python's
`ZeroDivisionError` made explicit, as in the video variant. -/
def matrix_to_pointsE (mat : List (List ℤ)) : Except Unit (List (ℚ × ℚ)) :=
  let H := mat.length
  let W := if 0 < H then mat.headI.length else 0
  (List.range H).foldlM
    (fun pts row =>
      (List.range W).foldlM
        (fun pts col =>
          if (mat.getD row []).getD col 0 ≠ 0 then
            if W = 1 ∨ H = 1 then Except.error ()
            else Except.ok (pts ++ [cell_to_point H W row col])
          else Except.ok pts)
        pts)
    []

/-- Model of `create_base_block` of `vectorscope.py` (the image/static
variant): as the video variant but with its own point function and
`N_SAMPLES_PER_PIXEL = 100`. -/
def create_base_block (mat : List (List ℤ)) (rng : RNG) :
    (Option (List (ℚ × ℚ)) × Nat) × RNG :=
  let pts := matrix_to_points mat
  if pts.length = 0 then ((none, 0), rng)
  else
    let total := pts.length * N_SAMPLES_PER_PIXEL
    let amps := pts.map fun p => xy_to_stereo p.1 p.2
    let res := synth_block N_SAMPLES_PER_PIXEL amps rng
    ((some res.1, total), res.2)

/-- Model of `total_samples = int(IMAGE_DURATION * SAMPLE_RATE)` in
`MatrixGUI._export_image`. -/
def total_samples_image : Nat := (⌊IMAGE_DURATION * (SAMPLE_RATE : ℚ)⌋).toNat

end Vectorscope

/-- Outcome of an export entry point: either a user-facing warning with
no data written, or a data buffer handed to the WAV writer. -/
inductive ExportResult where
  | warned : ExportResult
  | wrote : List (ℚ × ℚ) → ExportResult
deriving DecidableEq

namespace Vectorscope

/-- Model of the synthesis part of `MatrixGUI._export_image` of
`vectorscope.py` (the static/image export): the base block of the current
frame is built; if it is empty the data is `np.zeros((total_samples, 2))`,
otherwise the block is tiled and truncated to `total_samples`; in every
case the data is written (`sf.write` followed by a success message) —
there is no warning branch. -/
def export_image (mat : List (List ℤ)) (rng : RNG) : ExportResult × RNG :=
  let res := create_base_block mat rng
  let data :=
    if res.1.2 = 0 then List.replicate total_samples_image ((0 : ℚ), (0 : ℚ))
    else duration_fit (res.1.1.getD []) total_samples_image
  (.wrote data, res.2)

end Vectorscope

/-! ### Auxiliary lemmas -/

lemma total_samples_frame_eq : total_samples_frame = 5512 := by
  have h : FRAME_DURATION * (SAMPLE_RATE : ℚ) = 11025 / 2 := by
    norm_num [FRAME_DURATION, SAMPLE_RATE]
  have h2 : (⌊(11025 / 2 : ℚ)⌋ : ℤ) = 5512 := by norm_num
  rw [total_samples_frame, h, h2]
  rfl

lemma total_samples_frame_pos : 0 < total_samples_frame := by
  rw [total_samples_frame_eq]; norm_num

lemma total_samples_image_eq : Vectorscope.total_samples_image = 1323000 := by
  have h : Vectorscope.IMAGE_DURATION * (SAMPLE_RATE : ℚ) = 1323000 := by
    norm_num [Vectorscope.IMAGE_DURATION, SAMPLE_RATE]
  have h2 : (⌊(1323000 : ℚ)⌋ : ℤ) = 1323000 := by norm_num
  rw [Vectorscope.total_samples_image, h, h2]
  rfl

lemma np_tile_length (n : Nat) (l : List (ℚ × ℚ)) :
    (np_tile n l).length = n * l.length := by
  induction n with
  | zero => simp [np_tile]
  | succ n ih => simp [np_tile, ih]; ring

lemma mem_np_tile {n : Nat} {l : List (ℚ × ℚ)} {s : ℚ × ℚ}
    (h : s ∈ np_tile n l) : s ∈ l := by
  induction n with
  | zero => simp [np_tile] at h
  | succ n ih =>
    rcases List.mem_append.mp h with h1 | h2
    · exact h1
    · exact ih h2

lemma nat_le_ceil_mul {T B : Nat} (hB : 0 < B) :
    T ≤ (T + B - 1) / B * B := by
  have h : T ≤ B • (T ⌈/⌉ B) := le_smul_ceilDiv hB
  rw [Nat.ceilDiv_eq_add_pred_div, smul_eq_mul, Nat.mul_comm] at h
  exact h

lemma duration_fit_length (block : List (ℚ × ℚ)) (T : Nat) :
    (duration_fit block T).length = T := by
  unfold duration_fit
  by_cases hB : block.length = 0
  · simp [hB]
  · have hBpos : 0 < block.length := Nat.pos_of_ne_zero hB
    simp only [hB, if_false, List.length_take, np_tile_length]
    exact Nat.min_eq_left (nat_le_ceil_mul hBpos)

lemma duration_fit_nil (T : Nat) :
    duration_fit [] T = List.replicate T ((0 : ℚ), (0 : ℚ)) := by
  simp [duration_fit]

lemma nat_ceilDiv_eq_rat_ceil {T B : Nat} (hB : 0 < B) :
    (((T + B - 1) / B : Nat) : ℤ) = ⌈(T : ℚ) / (B : ℚ)⌉ := by
  have hBq : (0 : ℚ) < (B : ℚ) := by exact_mod_cast hB
  symm
  rw [Int.ceil_eq_iff]
  constructor
  · have h1 : (T + B - 1) / B * B ≤ T + B - 1 := Nat.div_mul_le_self _ _
    have h2 : (T + B - 1) / B * B + 1 ≤ T + B := by omega
    have h2q : (((T + B - 1) / B : Nat) : ℚ) * (B : ℚ) + 1 ≤ (T : ℚ) + (B : ℚ) := by
      exact_mod_cast h2
    rw [lt_div_iff₀ hBq, Int.cast_natCast]
    nlinarith [h2q]
  · have h3 : T ≤ (T + B - 1) / B * B := nat_le_ceil_mul hB
    have h3q : (T : ℚ) ≤ (((T + B - 1) / B : Nat) : ℚ) * (B : ℚ) := by
      exact_mod_cast h3
    rw [div_le_iff₀ hBq, Int.cast_natCast]
    exact h3q

/-! ### Claim theorems -/

/-- C1. Duration fitting with `reps = ceil(T / B)` (tiling the base block
`reps` times end-to-end and truncating to the first `T` samples) yields
exactly `T` stereo samples for every base block and every target `T > 0`,
never reading past the input (every emitted sample is a sample of the
block), and for an empty base block (`B = 0`) it yields `T` samples of
silence (both channels zero); moreover the repetition count used is the
exact ceiling of `T / B`. -/
theorem duration_fit_exact (block : List (ℚ × ℚ)) (T : Nat) (hT : 0 < T) :
    (duration_fit block T).length = T ∧
    (block.length = 0 →
      duration_fit block T = List.replicate T ((0 : ℚ), (0 : ℚ))) ∧
    (0 < block.length → ∀ s ∈ duration_fit block T, s ∈ block) ∧
    (0 < block.length →
      (((T + block.length - 1) / block.length : Nat) : ℤ) =
        ⌈(T : ℚ) / (block.length : ℚ)⌉) := by
  refine ⟨duration_fit_length block T, ?_, ?_, ?_⟩
  · intro hB
    have hnil : block = [] := List.length_eq_zero.mp hB
    rw [hnil, duration_fit_nil]
  · intro hB s hs
    have hB0 : ¬ block.length = 0 := Nat.pos_iff_ne_zero.mp hB
    rw [duration_fit, if_neg hB0] at hs
    exact mem_np_tile (List.mem_of_mem_take hs)
  · intro hB
    exact nat_ceilDiv_eq_rat_ceil hB

/-- Witness for C1 at the concrete block `[(1/2, -1/2)]` and target 3. -/
theorem duration_fit_exact_witness :
    0 < 3 ∧
    ((duration_fit [((1 : ℚ) / 2, -1 / 2)] 3).length = 3 ∧
    ([((1 : ℚ) / 2, -1 / 2)].length = 0 →
      duration_fit [((1 : ℚ) / 2, -1 / 2)] 3 =
        List.replicate 3 ((0 : ℚ), (0 : ℚ))) ∧
    (0 < [((1 : ℚ) / 2, -1 / 2)].length →
      ∀ s ∈ duration_fit [((1 : ℚ) / 2, -1 / 2)] 3,
        s ∈ [((1 : ℚ) / 2, -1 / 2)]) ∧
    (0 < [((1 : ℚ) / 2, -1 / 2)].length →
      (((3 + [((1 : ℚ) / 2, -1 / 2)].length - 1) /
          [((1 : ℚ) / 2, -1 / 2)].length : Nat) : ℤ) =
        ⌈(3 : ℚ) / ([((1 : ℚ) / 2, -1 / 2)].length : ℚ)⌉)) :=
  ⟨by norm_num, duration_fit_exact [((1 : ℚ) / 2, -1 / 2)] 3 (by norm_num)⟩

/-- Inverse of the visualizer display transform, as stated by the claim
and §4.2 of the spec: from `(left, right)` recover `(right - left,
right + left)`. -/
def stereo_to_xy (l r : ℚ) : ℚ × ℚ := (r - l, r + l)

/-- C5. The stereo projection `left = (y - x)/2`, `right = (x + y)/2`
composed with the visualizer inverse `(right - left, right + left)` is
the identity on every input point `(x, y)`. -/
theorem stereo_roundtrip (x y : ℚ) :
    stereo_to_xy (xy_to_stereo x y).1 (xy_to_stereo x y).2 = (x, y) := by
  unfold stereo_to_xy xy_to_stereo
  refine Prod.ext ?_ ?_ <;> simp <;> ring

/-- C6. For `N ≥ 2` the coordinate mapper is given by the stated affine
formulas, sends `(0,0)` to `(-1,+1)` and `(N-1,N-1)` to `(+1,-1)`, is
affine in each argument, strictly increasing in the column (column 0 at
the left) and strictly decreasing in the row (row 0 at the top). -/
theorem cell_to_point_spec (N : Nat) (hN : 2 ≤ N) :
    (∀ row col : Nat, cell_to_point N N row col =
      ((2 * (col : ℚ)) / ((N : ℚ) - 1) - 1,
        -((2 * (row : ℚ)) / ((N : ℚ) - 1) - 1))) ∧
    cell_to_point N N 0 0 = (-1, 1) ∧
    cell_to_point N N (N - 1) (N - 1) = (1, -1) ∧
    (∃ a b c d : ℚ, 0 < a ∧ c < 0 ∧ ∀ row col : Nat,
      cell_to_point N N row col = (a * col + b, c * row + d)) ∧
    (∀ row col col' : Nat, col < col' →
      (cell_to_point N N row col).1 < (cell_to_point N N row col').1) ∧
    (∀ row row' col : Nat, row < row' →
      (cell_to_point N N row' col).2 < (cell_to_point N N row col).2) := by
  have hNq : (2 : ℚ) ≤ (N : ℚ) := by exact_mod_cast hN
  have hpos : (0 : ℚ) < (N : ℚ) - 1 := by linarith
  have hne : ((N : ℚ) - 1) ≠ 0 := ne_of_gt hpos
  have hcast : (((N - 1 : Nat)) : ℚ) = (N : ℚ) - 1 := by
    have h1 : 1 ≤ N := le_trans (by norm_num) hN
    push_cast [Nat.cast_sub h1]
    ring
  refine ⟨fun row col => rfl, ?_, ?_, ?_, ?_, ?_⟩
  · unfold cell_to_point
    norm_num
  · unfold cell_to_point
    rw [hcast]
    refine Prod.ext ?_ ?_ <;> simp <;> field_simp <;> ring
  · refine ⟨2 / ((N : ℚ) - 1), -1, -(2 / ((N : ℚ) - 1)), 1, ?_, ?_, ?_⟩
    · positivity
    · simp only [neg_neg, neg_lt, neg_zero]
      positivity
    · intro row col
      unfold cell_to_point
      refine Prod.ext ?_ ?_ <;> simp <;> field_simp <;> ring
  · intro row col col' hlt
    have hq : (col : ℚ) < (col' : ℚ) := by exact_mod_cast hlt
    have h2 : (2 * (col : ℚ)) / ((N : ℚ) - 1) < (2 * (col' : ℚ)) / ((N : ℚ) - 1) :=
      (div_lt_div_iff_of_pos_right hpos).mpr (by linarith)
    simp only [cell_to_point]
    linarith
  · intro row row' col hlt
    have hq : (row : ℚ) < (row' : ℚ) := by exact_mod_cast hlt
    have h2 : (2 * (row : ℚ)) / ((N : ℚ) - 1) < (2 * (row' : ℚ)) / ((N : ℚ) - 1) :=
      (div_lt_div_iff_of_pos_right hpos).mpr (by linarith)
    simp only [cell_to_point]
    linarith

/-- Witness for C6 at the concrete grid dimension `N = 2`. -/
theorem cell_to_point_spec_witness :
    2 ≤ 2 ∧
    ((∀ row col : Nat, cell_to_point 2 2 row col =
      ((2 * (col : ℚ)) / (((2 : Nat) : ℚ) - 1) - 1,
        -((2 * (row : ℚ)) / (((2 : Nat) : ℚ) - 1) - 1))) ∧
    cell_to_point 2 2 0 0 = (-1, 1) ∧
    cell_to_point 2 2 (2 - 1) (2 - 1) = (1, -1) ∧
    (∃ a b c d : ℚ, 0 < a ∧ c < 0 ∧ ∀ row col : Nat,
      cell_to_point 2 2 row col = (a * col + b, c * row + d)) ∧
    (∀ row col col' : Nat, col < col' →
      (cell_to_point 2 2 row col).1 < (cell_to_point 2 2 row col').1) ∧
    (∀ row row' col : Nat, row < row' →
      (cell_to_point 2 2 row' col).2 < (cell_to_point 2 2 row col).2)) :=
  ⟨by norm_num, cell_to_point_spec 2 (by norm_num)⟩

/-! ### Lemmas about the synthesis loop -/

lemma draw_normal_length (rng : RNG) (loc scale : ℚ) (size : Nat) :
    (draw_normal rng loc scale size).1.length = size := by
  simp [draw_normal]

lemma clip_mem_Icc (x : ℚ) : -1 ≤ clip x (-1) 1 ∧ clip x (-1) 1 ≤ 1 := by
  unfold clip
  constructor
  · exact le_min (by norm_num) (le_max_right x (-1))
  · exact min_le_left 1 (max x (-1))

lemma synth_block_length (K : Nat) (amps : List (ℚ × ℚ)) (rng : RNG) :
    (synth_block K amps rng).1.length = amps.length * K := by
  induction amps generalizing rng with
  | nil => simp [synth_block]
  | cons amp rest ih =>
    simp only [synth_block, List.length_append, List.length_cons]
    rw [List.length_zip, List.length_map, List.length_map,
      draw_normal_length, draw_normal_length, ih]
    simp [Nat.succ_mul, Nat.add_comm, Nat.min_self]

lemma synth_block_bounds (K : Nat) (amps : List (ℚ × ℚ)) (rng : RNG) :
    ∀ s ∈ (synth_block K amps rng).1,
      (-1 ≤ s.1 ∧ s.1 ≤ 1) ∧ (-1 ≤ s.2 ∧ s.2 ≤ 1) := by
  induction amps generalizing rng with
  | nil => simp [synth_block]
  | cons amp rest ih =>
    intro s hs
    simp only [synth_block] at hs
    rcases List.mem_append.mp hs with h1 | h2
    · obtain ⟨a, b⟩ := s
      have hab := List.of_mem_zip h1
      obtain ⟨ha, hb⟩ := hab
      obtain ⟨xa, _, hxa⟩ := List.mem_map.mp ha
      obtain ⟨xb, _, hxb⟩ := List.mem_map.mp hb
      constructor
      · rw [← hxa]; exact clip_mem_Icc xa
      · rw [← hxb]; exact clip_mem_Icc xb
    · exact ih _ s h2

/-- C2. For every pattern with at least one active cell, each
`create_base_block` variant returns a block of exactly `A * K` stereo
samples (`A` the number of active cells under that variant's activity
test, `K` its samples-per-active-cell constant), reports that count, and
every sample of both channels lies in `[-1, 1]`. -/
theorem create_base_block_count_and_bounds (mat : List (List ℤ)) (rng rng2 : RNG)
    (hA : 1 ≤ (VectorscopeVideo.matrix_to_points mat).length)
    (hA2 : 1 ≤ (Vectorscope.matrix_to_points mat).length) :
    (∃ blk, (VectorscopeVideo.create_base_block mat rng).1 =
        (some blk, (VectorscopeVideo.matrix_to_points mat).length *
          VectorscopeVideo.N_SAMPLES_PER_PIXEL) ∧
      blk.length = (VectorscopeVideo.matrix_to_points mat).length *
        VectorscopeVideo.N_SAMPLES_PER_PIXEL ∧
      ∀ s ∈ blk, (-1 ≤ s.1 ∧ s.1 ≤ 1) ∧ (-1 ≤ s.2 ∧ s.2 ≤ 1)) ∧
    (∃ blk, (Vectorscope.create_base_block mat rng2).1 =
        (some blk, (Vectorscope.matrix_to_points mat).length *
          Vectorscope.N_SAMPLES_PER_PIXEL) ∧
      blk.length = (Vectorscope.matrix_to_points mat).length *
        Vectorscope.N_SAMPLES_PER_PIXEL ∧
      ∀ s ∈ blk, (-1 ≤ s.1 ∧ s.1 ≤ 1) ∧ (-1 ≤ s.2 ∧ s.2 ≤ 1)) := by
  constructor
  · have hne : ¬ ((VectorscopeVideo.matrix_to_points mat).length = 0) := by omega
    refine ⟨(synth_block VectorscopeVideo.N_SAMPLES_PER_PIXEL
        ((VectorscopeVideo.matrix_to_points mat).map fun p =>
          xy_to_stereo p.1 p.2) rng).1, ?_, ?_, ?_⟩
    · simp only [VectorscopeVideo.create_base_block, if_neg hne]
    · rw [synth_block_length, List.length_map]
    · intro s hs
      exact synth_block_bounds _ _ _ s hs
  · have hne : ¬ ((Vectorscope.matrix_to_points mat).length = 0) := by omega
    refine ⟨(synth_block Vectorscope.N_SAMPLES_PER_PIXEL
        ((Vectorscope.matrix_to_points mat).map fun p =>
          xy_to_stereo p.1 p.2) rng2).1, ?_, ?_, ?_⟩
    · simp only [Vectorscope.create_base_block, if_neg hne]
    · rw [synth_block_length, List.length_map]
    · intro s hs
      exact synth_block_bounds _ _ _ s hs

/-- Witness for C2 at the concrete pattern with active cells at `(0,0)`
and `(1,1)` of a `2 × 2` grid, and the all-zero draw stream. -/
theorem create_base_block_count_and_bounds_witness :
    1 ≤ (VectorscopeVideo.matrix_to_points [[1, 0], [0, 1]]).length ∧
    1 ≤ (Vectorscope.matrix_to_points [[1, 0], [0, 1]]).length ∧
    ((∃ blk, (VectorscopeVideo.create_base_block [[1, 0], [0, 1]] rng0).1 =
        (some blk, (VectorscopeVideo.matrix_to_points [[1, 0], [0, 1]]).length *
          VectorscopeVideo.N_SAMPLES_PER_PIXEL) ∧
      blk.length = (VectorscopeVideo.matrix_to_points [[1, 0], [0, 1]]).length *
        VectorscopeVideo.N_SAMPLES_PER_PIXEL ∧
      ∀ s ∈ blk, (-1 ≤ s.1 ∧ s.1 ≤ 1) ∧ (-1 ≤ s.2 ∧ s.2 ≤ 1)) ∧
    (∃ blk, (Vectorscope.create_base_block [[1, 0], [0, 1]] rng0).1 =
        (some blk, (Vectorscope.matrix_to_points [[1, 0], [0, 1]]).length *
          Vectorscope.N_SAMPLES_PER_PIXEL) ∧
      blk.length = (Vectorscope.matrix_to_points [[1, 0], [0, 1]]).length *
        Vectorscope.N_SAMPLES_PER_PIXEL ∧
      ∀ s ∈ blk, (-1 ≤ s.1 ∧ s.1 ≤ 1) ∧ (-1 ≤ s.2 ∧ s.2 ≤ 1))) :=
  ⟨by decide, by decide,
    create_base_block_count_and_bounds [[1, 0], [0, 1]] rng0 rng0
      (by decide) (by decide)⟩

/-! ### Lemmas about the animated-mode assembler -/

lemma video_segments_length (frames : List (List (List ℤ))) (rng : RNG) :
    (VectorscopeVideo.video_segments frames rng).1.length = frames.length := by
  induction frames generalizing rng with
  | nil => simp [VectorscopeVideo.video_segments]
  | cons m rest ih => simp [VectorscopeVideo.video_segments, ih]

lemma video_segments_seg_length (frames : List (List (List ℤ))) (rng : RNG) :
    ∀ s ∈ (VectorscopeVideo.video_segments frames rng).1,
      s.length = total_samples_frame := by
  induction frames generalizing rng with
  | nil => simp [VectorscopeVideo.video_segments]
  | cons m rest ih =>
    intro s hs
    simp only [VectorscopeVideo.video_segments, List.mem_cons] at hs
    rcases hs with h1 | h2
    · rw [h1]
      exact duration_fit_length _ _
    · exact ih _ s h2

lemma video_segments_flatten_length (frames : List (List (List ℤ))) (rng : RNG) :
    (VectorscopeVideo.video_segments frames rng).1.flatten.length =
      frames.length * total_samples_frame := by
  induction frames generalizing rng with
  | nil => simp [VectorscopeVideo.video_segments]
  | cons m rest ih =>
    simp only [VectorscopeVideo.video_segments, List.flatten_cons,
      List.length_append, List.length_cons, ih, duration_fit_length]
    ring

lemma generate_video_length (frames : List (List (List ℤ))) (rng : RNG)
    (h : frames.length ≠ 0) :
    ((VectorscopeVideo.generate_video_wav_from_frames frames rng).1.getD []).length
      = frames.length * total_samples_frame := by
  simp only [VectorscopeVideo.generate_video_wav_from_frames, if_neg h,
    Option.getD_some]
  exact video_segments_flatten_length frames rng

lemma video_segments_getD_empty (frames : List (List (List ℤ))) (rng : RNG)
    (i : Nat) (hi : i < frames.length)
    (hempty : (VectorscopeVideo.matrix_to_points (frames.getD i [])).length = 0) :
    (VectorscopeVideo.video_segments frames rng).1.getD i [] =
      List.replicate total_samples_frame ((0 : ℚ), (0 : ℚ)) := by
  induction frames generalizing i rng with
  | nil => simp at hi
  | cons m rest ih =>
    cases i with
    | zero =>
      simp only [List.getD_cons_zero] at hempty
      simp only [VectorscopeVideo.video_segments, List.getD_cons_zero,
        VectorscopeVideo.create_base_block, if_pos hempty, Option.getD_none]
      exact duration_fit_nil _
    | succ i =>
      simp only [List.getD_cons_succ] at hempty
      simp only [VectorscopeVideo.video_segments, List.getD_cons_succ]
      exact ih _ i (by simpa using hi) hempty

lemma flatten_uniform_chunk {α : Type} (L : List (List α)) (T : Nat)
    (h : ∀ s ∈ L, s.length = T) (i : Nat) (hi : i < L.length) :
    (L.flatten.drop (i * T)).take T = L.getD i [] := by
  induction L generalizing i with
  | nil => simp at hi
  | cons s rest ih =>
    have hs : s.length = T := h s (by simp)
    cases i with
    | zero =>
      simp only [Nat.zero_mul, List.drop_zero, List.flatten_cons,
        List.getD_cons_zero]
      rw [← hs, List.take_left]
    | succ i =>
      simp only [List.flatten_cons, List.getD_cons_succ]
      have harith : (i + 1) * T = s.length + i * T := by rw [hs]; ring
      rw [harith, ← List.drop_drop, List.drop_left]
      exact ih (fun t ht => h t (by simp [ht])) i (by simpa using hi)

/-- C3 counterexample. The claim computes the per-frame sample count with
`round`; at the program's configuration `FRAME_DURATION * SAMPLE_RATE =
5512.5`, rounding gives 5513 while the code truncates (`int(...)`) to
5512, so already for a single frame the claimed total is wrong. -/
theorem animated_round_count_counterexample :
    ¬ (((VectorscopeVideo.generate_video_wav_from_frames [[[0]]] rng0).1.getD
        []).length =
      ([[[0]]] : List (List (List ℤ))).length *
        (round (FRAME_DURATION * (SAMPLE_RATE : ℚ))).toNat) := by
  have h1 : ((VectorscopeVideo.generate_video_wav_from_frames [[[0]]]
      rng0).1.getD []).length = 5512 := by
    rw [generate_video_length _ _ (by decide), total_samples_frame_eq]
    decide
  have h2 : (round (FRAME_DURATION * (SAMPLE_RATE : ℚ))).toNat = 5513 := by
    have h : FRAME_DURATION * (SAMPLE_RATE : ℚ) = 11025 / 2 := by
      norm_num [FRAME_DURATION, SAMPLE_RATE]
    have h3 : (⌊(11025 / 2 + 1 / 2 : ℚ)⌋ : ℤ) = 5513 := by norm_num
    rw [h, round_eq, h3]
    rfl
  rw [h1, h2]
  decide

/-- C3 (amended). In animated mode, for every non-empty frame list the
output buffer exists and its total sample count is exactly
`frameCount * int(frameDurationSeconds * sampleRate)` — the per-frame
count obtained by truncation (`total_samples_frame`, i.e. 5512 at the
reference configuration), not by rounding — regardless of the per-frame
pixel counts. -/
theorem animated_total_sample_count (frames : List (List (List ℤ)))
    (rng : RNG) (h : frames ≠ []) :
    ∃ out,
      (VectorscopeVideo.generate_video_wav_from_frames frames rng).1 = some out ∧
      out.length = frames.length * total_samples_frame := by
  have hlen : frames.length ≠ 0 := fun hc => h (List.length_eq_zero.mp hc)
  refine ⟨(VectorscopeVideo.video_segments frames rng).1.flatten, ?_, ?_⟩
  · simp only [VectorscopeVideo.generate_video_wav_from_frames, if_neg hlen]
  · exact video_segments_flatten_length frames rng

/-- Witness for C3 (amended) at a concrete single-frame input. -/
theorem animated_total_sample_count_witness :
    ([[[1]]] : List (List (List ℤ))) ≠ [] ∧
    ∃ out,
      (VectorscopeVideo.generate_video_wav_from_frames [[[1]]] rng0).1 =
        some out ∧
      out.length =
        ([[[1]]] : List (List (List ℤ))).length * total_samples_frame :=
  ⟨by decide, animated_total_sample_count [[[1]]] rng0 (by decide)⟩

/-- C7. In animated mode a frame with zero active cells is not an error:
its segment is exactly `total_samples_frame` samples that are exactly
zero in both channels, one segment is produced for every frame (synthesis
continues with the remaining frames in order), and the corresponding
chunk of the final output buffer is that silence. -/
theorem empty_frame_silent_segment (frames : List (List (List ℤ)))
    (rng : RNG) (i : Nat) (hi : i < frames.length)
    (hempty : (VectorscopeVideo.matrix_to_points (frames.getD i [])).length = 0) :
    (VectorscopeVideo.video_segments frames rng).1.getD i [] =
      List.replicate total_samples_frame ((0 : ℚ), (0 : ℚ)) ∧
    (VectorscopeVideo.video_segments frames rng).1.length = frames.length ∧
    (((VectorscopeVideo.generate_video_wav_from_frames frames rng).1.getD
        []).drop (i * total_samples_frame)).take total_samples_frame =
      List.replicate total_samples_frame ((0 : ℚ), (0 : ℚ)) := by
  have hlen : frames.length ≠ 0 := by omega
  refine ⟨video_segments_getD_empty frames rng i hi hempty,
    video_segments_length frames rng, ?_⟩
  simp only [VectorscopeVideo.generate_video_wav_from_frames, if_neg hlen,
    Option.getD_some]
  rw [flatten_uniform_chunk _ total_samples_frame
    (video_segments_seg_length frames rng) i
    (by rw [video_segments_length]; exact hi)]
  exact video_segments_getD_empty frames rng i hi hempty

/-- Witness for C7 at a concrete 3-frame sequence whose middle frame is
empty. -/
theorem empty_frame_silent_segment_witness :
    1 < ([[[1]], [[0]], [[1]]] : List (List (List ℤ))).length ∧
    (VectorscopeVideo.matrix_to_points
      (([[[1]], [[0]], [[1]]] : List (List (List ℤ))).getD 1 [])).length = 0 ∧
    ((VectorscopeVideo.video_segments [[[1]], [[0]], [[1]]] rng0).1.getD 1 [] =
      List.replicate total_samples_frame ((0 : ℚ), (0 : ℚ)) ∧
    (VectorscopeVideo.video_segments [[[1]], [[0]], [[1]]] rng0).1.length =
      ([[[1]], [[0]], [[1]]] : List (List (List ℤ))).length ∧
    (((VectorscopeVideo.generate_video_wav_from_frames [[[1]], [[0]], [[1]]]
        rng0).1.getD []).drop (1 * total_samples_frame)).take
        total_samples_frame =
      List.replicate total_samples_frame ((0 : ℚ), (0 : ℚ))) :=
  ⟨by decide, by decide,
    empty_frame_silent_segment [[[1]], [[0]], [[1]]] rng0 1 (by decide)
      (by decide)⟩

/-! ### Static-mode export, determinism, variant agreement -/

/-- The all-zero 16 by 16 pattern of the reference configuration. -/
def zero16 : List (List ℤ) := List.replicate 16 (List.replicate 16 0)

lemma export_image_of_empty (mat : List (List ℤ)) (rng : RNG)
    (hempty : (Vectorscope.matrix_to_points mat).length = 0) :
    Vectorscope.export_image mat rng =
      (ExportResult.wrote
        (List.replicate Vectorscope.total_samples_image ((0 : ℚ), (0 : ℚ))),
       rng) := by
  simp only [Vectorscope.export_image, Vectorscope.create_base_block,
    if_pos hempty, if_true]

/-- C4 counterexample. For the empty 16 by 16 pattern the static export
does not raise a warning and does produce (and write) a buffer: it
returns the full-length silent buffer. -/
theorem export_image_empty_counterexample :
    (Vectorscope.export_image zero16 rng0).1 ≠ ExportResult.warned ∧
    (Vectorscope.export_image zero16 rng0).1 =
      ExportResult.wrote
        (List.replicate Vectorscope.total_samples_image ((0 : ℚ), (0 : ℚ))) := by
  have h := export_image_of_empty zero16 rng0 (by decide)
  rw [h]
  exact ⟨by simp, rfl⟩

/-- C4 (amended). A static-mode export whose sole pattern has zero active
cells is not aborted and raises no warning: the code produces a buffer of
`total_samples_image` samples of silence (both channels zero) and writes
it to the chosen file, reporting success. -/
theorem export_image_empty_writes_silence (mat : List (List ℤ)) (rng : RNG)
    (hempty : (Vectorscope.matrix_to_points mat).length = 0) :
    Vectorscope.export_image mat rng =
      (ExportResult.wrote
        (List.replicate Vectorscope.total_samples_image ((0 : ℚ), (0 : ℚ))),
       rng) :=
  export_image_of_empty mat rng hempty

/-- Witness for C4 (amended) at the empty 16 by 16 pattern. -/
theorem export_image_empty_writes_silence_witness :
    (Vectorscope.matrix_to_points zero16).length = 0 ∧
    Vectorscope.export_image zero16 rng0 =
      (ExportResult.wrote
        (List.replicate Vectorscope.total_samples_image ((0 : ℚ), (0 : ℚ))),
       rng0) :=
  ⟨by decide, export_image_empty_writes_silence zero16 rng0 (by decide)⟩

/-- C8. The pipeline is deterministic in the injected random-generator
state: two runs from equal generator states (same stream, same position)
on the same frames and the same pattern produce identical outputs, for
the animated export and the static export alike. -/
theorem pipeline_deterministic (r1 r2 : RNG) (frames : List (List (List ℤ)))
    (mat : List (List ℤ)) (hs : r1.stream = r2.stream) (hp : r1.pos = r2.pos) :
    VectorscopeVideo.generate_video_wav_from_frames frames r1 =
      VectorscopeVideo.generate_video_wav_from_frames frames r2 ∧
    Vectorscope.export_image mat r1 = Vectorscope.export_image mat r2 := by
  obtain ⟨s1, p1⟩ := r1
  obtain ⟨s2, p2⟩ := r2
  simp only at hs hp
  subst hs
  subst hp
  exact ⟨rfl, rfl⟩

/-- Witness for C8 at a concrete generator state, frame list and
pattern. -/
theorem pipeline_deterministic_witness :
    rng0.stream = rng0.stream ∧ rng0.pos = rng0.pos ∧
    (VectorscopeVideo.generate_video_wav_from_frames [[[1]]] rng0 =
      VectorscopeVideo.generate_video_wav_from_frames [[[1]]] rng0 ∧
    Vectorscope.export_image [[1]] rng0 = Vectorscope.export_image [[1]] rng0) :=
  ⟨rfl, rfl, pipeline_deterministic rng0 rng0 [[[1]]] [[1]] rfl rfl⟩

lemma cell_value_zero_or_one {mat : List (List ℤ)}
    (h : ∀ row ∈ mat, ∀ v ∈ row, v = 0 ∨ v = 1) (row col : Nat) :
    (mat.getD row []).getD col 0 = 0 ∨ (mat.getD row []).getD col 0 = 1 := by
  by_cases hr : row < mat.length
  · have hrowmem : mat.getD row [] ∈ mat := by
      rw [List.getD_eq_getElem mat [] hr]
      exact List.getElem_mem hr
    by_cases hc : col < (mat.getD row []).length
    · have hv : (mat.getD row []).getD col 0 ∈ mat.getD row [] := by
        rw [List.getD_eq_getElem _ 0 hc]
        exact List.getElem_mem hc
      exact h _ hrowmem _ hv
    · left
      exact List.getD_eq_default _ _ (Nat.le_of_not_lt hc)
  · left
    rw [List.getD_eq_default _ _ (Nat.le_of_not_lt hr)]
    rfl

/-- C9. On every matrix whose cells all lie in 0 or 1, the truthiness
variant of `matrix_to_points` (`vectorscope.py`) and the equality-with-1
variant (`vectorscope_video.py`) return equal point lists in the same
order. -/
theorem matrix_to_points_variants_agree (mat : List (List ℤ))
    (h : ∀ row ∈ mat, ∀ v ∈ row, v = 0 ∨ v = 1) :
    Vectorscope.matrix_to_points mat = VectorscopeVideo.matrix_to_points mat := by
  simp only [Vectorscope.matrix_to_points, VectorscopeVideo.matrix_to_points]
  apply List.flatMap_congr
  intro row hrow
  apply List.filterMap_congr
  intro col hcol
  rcases cell_value_zero_or_one h row col with h0 | h1
  · rw [h0]
    norm_num
  · rw [h1]
    norm_num

/-- Witness for C9 at a concrete 0/1 matrix. -/
theorem matrix_to_points_variants_agree_witness :
    (∀ row ∈ ([[1, 0], [0, 1]] : List (List ℤ)), ∀ v ∈ row, v = 0 ∨ v = 1) ∧
    Vectorscope.matrix_to_points [[1, 0], [0, 1]] =
      VectorscopeVideo.matrix_to_points [[1, 0], [0, 1]] :=
  ⟨by decide, matrix_to_points_variants_agree [[1, 0], [0, 1]] (by decide)⟩

lemma foldlM_except_ok {σ α : Type} (l : List α) (f : σ → α → Except Unit σ)
    (acc : σ) (h : ∀ s : σ, ∀ a ∈ l, f s a = Except.ok s) :
    l.foldlM f acc = Except.ok acc := by
  induction l generalizing acc with
  | nil => rfl
  | cons a rest ih =>
    rw [List.foldlM_cons, h acc a (by simp)]
    exact ih acc fun s b hb => h s b (by simp [hb])

lemma cell_value_all_zero {mat : List (List ℤ)}
    (h : ∀ row ∈ mat, ∀ v ∈ row, v = 0) (row col : Nat) :
    (mat.getD row []).getD col 0 = 0 := by
  by_cases hr : row < mat.length
  · have hrowmem : mat.getD row [] ∈ mat := by
      rw [List.getD_eq_getElem mat [] hr]
      exact List.getElem_mem hr
    by_cases hc : col < (mat.getD row []).length
    · have hv : (mat.getD row []).getD col 0 ∈ mat.getD row [] := by
        rw [List.getD_eq_getElem _ 0 hc]
        exact List.getElem_mem hc
      exact h _ hrowmem _ hv
    · exact List.getD_eq_default _ _ (Nat.le_of_not_lt hc)
  · rw [List.getD_eq_default _ _ (Nat.le_of_not_lt hr)]
    rfl

/-- C10. On every matrix in which no cell is active, both
`matrix_to_points` variants return the empty point list without ever
evaluating the divisions by `W - 1` and `H - 1`: in the
division-by-zero-aware models no `ZeroDivisionError` is raised, even for
the degenerate dimensions `H = 1` or `W = 1`. -/
theorem matrix_to_points_empty_no_div (mat : List (List ℤ))
    (h : ∀ row ∈ mat, ∀ v ∈ row, v = 0) :
    VectorscopeVideo.matrix_to_pointsE mat = Except.ok [] ∧
    Vectorscope.matrix_to_pointsE mat = Except.ok [] := by
  constructor
  · simp only [VectorscopeVideo.matrix_to_pointsE]
    apply foldlM_except_ok
    intro pts row hrow
    apply foldlM_except_ok
    intro pts2 col hcol
    rw [cell_value_all_zero h row col]
    norm_num
  · simp only [Vectorscope.matrix_to_pointsE]
    apply foldlM_except_ok
    intro pts row hrow
    apply foldlM_except_ok
    intro pts2 col hcol
    rw [cell_value_all_zero h row col]
    norm_num

/-- Witness for C10 at the degenerate all-inactive 1 by 1 matrix, for
which the divisions would be by zero if they were evaluated. -/
theorem matrix_to_points_empty_no_div_witness :
    (∀ row ∈ ([[0]] : List (List ℤ)), ∀ v ∈ row, v = 0) ∧
    (VectorscopeVideo.matrix_to_pointsE [[0]] = Except.ok [] ∧
    Vectorscope.matrix_to_pointsE [[0]] = Except.ok []) :=
  ⟨by decide, matrix_to_points_empty_no_div [[0]] (by decide)⟩
